import Mathlib

/-!
Shallow embedding of the JobApplicationBot backend task/run state machinery:
the task state machine (app/services/state_machine.py), the task queue and
stuck-task recovery (app/services/queue.py), the run queue
(app/services/run_queue.py), and the approval resolution endpoint
(app/api/approvals.py).  Database rows are Lean structures, the database is a
list of rows, datetimes are natural numbers, and every fallible operation
returns an `Except`.
-/

namespace JobBot

/-- Task states as referenced by app/services/state_machine.py.  The
constructor set is the one the state machine, the approvals API and the test
suite use; note that the `TaskState` enum actually declared in
app/models/application_task.py omits `REJECTED` (see
`declaredTaskStateValues`). -/
inductive TaskState where
  | QUEUED
  | RUNNING
  | NEEDS_AUTH
  | NEEDS_USER
  | PENDING_APPROVAL
  | APPROVED
  | SUBMITTED
  | FAILED
  | EXPIRED
  | REJECTED
deriving DecidableEq, Repr, Fintype

/-- The string value of each task state (the enum is a str-Enum whose member
values equal the member names). -/
def TaskState.value : TaskState → String
  | .QUEUED => "QUEUED"
  | .RUNNING => "RUNNING"
  | .NEEDS_AUTH => "NEEDS_AUTH"
  | .NEEDS_USER => "NEEDS_USER"
  | .PENDING_APPROVAL => "PENDING_APPROVAL"
  | .APPROVED => "APPROVED"
  | .SUBMITTED => "SUBMITTED"
  | .FAILED => "FAILED"
  | .EXPIRED => "EXPIRED"
  | .REJECTED => "REJECTED"

/-- The enum members actually declared by class TaskState in
app/models/application_task.py (lines 11-21), in declaration order. -/
def declaredTaskStateValues : List String :=
  ["QUEUED", "RUNNING", "NEEDS_AUTH", "NEEDS_USER", "PENDING_APPROVAL",
   "APPROVED", "SUBMITTED", "FAILED", "EXPIRED"]

/-- ALLOWED_TRANSITIONS from app/services/state_machine.py (lines 19-38). -/
def ALLOWED_TRANSITIONS : TaskState → List TaskState
  | .QUEUED => [.RUNNING]
  | .RUNNING => [.NEEDS_AUTH, .NEEDS_USER, .PENDING_APPROVAL, .SUBMITTED,
                 .FAILED, .EXPIRED, .QUEUED]
  | .NEEDS_AUTH => [.QUEUED]
  | .NEEDS_USER => [.QUEUED]
  | .PENDING_APPROVAL => [.APPROVED, .EXPIRED, .REJECTED]
  | .APPROVED => [.RUNNING, .EXPIRED]
  | .FAILED => [.QUEUED]
  | .SUBMITTED => []
  | .REJECTED => []
  | .EXPIRED => [.QUEUED]

/-- A row of the application_tasks table (app/models/application_task.py). -/
structure ApplicationTask where
  id : Nat
  run_id : Nat
  job_id : Nat
  state : TaskState
  priority : Int
  attempt_count : Nat
  last_error_code : Option String
  last_error_message : Option String
  queued_at : Nat
  started_at : Option Nat
  last_state_change_at : Nat
deriving DecidableEq, Repr

/-- A row of the job_postings table, restricted to the fields
_mark_job_as_applied touches. -/
structure JobPosting where
  id : Nat
  has_been_applied_to : Bool
  last_applied_at : Option Nat
deriving DecidableEq, Repr

/-- The metadata dict passed to transition_task.  transition_task itself only
reads the error_code and error_message keys; the approvals API additionally
passes rejection_notes, which transition_task ignores. -/
structure TransitionMetadata where
  error_code : Option String
  error_message : Option String
  rejection_notes : Option String
deriving DecidableEq, Repr

/-- The exceptions transition_task can raise: ValueError when the task is not
found or not in the expected state, InvalidTransitionError when the requested
edge is not in ALLOWED_TRANSITIONS. -/
inductive TransitionError where
  | taskNotFound (task_id : Nat)
  | stateMismatch (current expected : TaskState)
  | invalidTransition (source target : TaskState)
deriving DecidableEq, Repr

/-- The metadata handling of transition_task (state_machine.py lines
103-108): persist error_code and error_message when present; an absent or
empty metadata dict changes nothing. -/
def apply_metadata (task : ApplicationTask)
    (metadata : Option TransitionMetadata) : ApplicationTask :=
  match metadata with
  | none => task
  | some m =>
    let ta : ApplicationTask :=
      match m.error_code with
      | some c => { task with last_error_code := some c }
      | none => task
    match m.error_message with
    | some msg => { ta with last_error_message := some msg }
    | none => ta

/-- The in-place updates transition_task performs once validation has passed
(state_machine.py lines 97-139), in source order.  The returned Bool records
whether _mark_job_as_applied was invoked (exactly when the requested target
state is SUBMITTED). -/
def apply_transition (task : ApplicationTask) (from_state : Option TaskState)
    (to_state : TaskState) (metadata : Option TransitionMetadata)
    (now : Nat) : ApplicationTask × Bool :=
  let t1 : ApplicationTask :=
    { task with state := to_state, last_state_change_at := now }
  let t2 : ApplicationTask := apply_metadata t1 metadata
  let t3 : ApplicationTask :=
    if to_state = .RUNNING then
      { t2 with started_at := some (t2.started_at.getD now),
                attempt_count := t2.attempt_count + 1 }
    else t2
  let t4 : ApplicationTask :=
    if to_state = .FAILED ∧ t3.attempt_count < 2 then
      { t3 with state := .QUEUED, priority := 100 }
    else t3
  let t5 : ApplicationTask :=
    if to_state = .QUEUED ∧
        (from_state = some .NEEDS_AUTH ∨ from_state = some .NEEDS_USER) then
      { t4 with priority := 100 }
    else t4
  let t6 : ApplicationTask :=
    if to_state = .RUNNING ∧ from_state = some .APPROVED then
      { t5 with priority := 200 }
    else t5
  (t6, to_state = .SUBMITTED)

/-- transition_task from app/services/state_machine.py (lines 48-162),
modelled on the already-fetched task row.  Validation happens before any
mutation, so an error leaves the task unchanged by construction. -/
def transition_task (task : ApplicationTask) (from_state : Option TaskState)
    (to_state : TaskState) (metadata : Option TransitionMetadata)
    (now : Nat) : Except TransitionError (ApplicationTask × Bool) :=
  let current_state := task.state
  if from_state ≠ none ∧ from_state ≠ some current_state then
    .error (.stateMismatch current_state (from_state.getD current_state))
  else
    let transition_from := from_state.getD current_state
    if to_state ∈ ALLOWED_TRANSITIONS transition_from then
      .ok (apply_transition task from_state to_state metadata now)
    else
      .error (.invalidTransition transition_from to_state)

/-- can_transition from app/services/state_machine.py (lines 164-166). -/
def can_transition (from_state to_state : TaskState) : Bool :=
  decide (to_state ∈ ALLOWED_TRANSITIONS from_state)

/-- _mark_job_as_applied from app/services/state_machine.py (lines 169-184),
modelled on the found job row. -/
def mark_job_as_applied (job : JobPosting) (now : Nat) : JobPosting :=
  { job with has_been_applied_to := true, last_applied_at := some now }

/-- One step of ORDER BY ... LIMIT 1 over a list: keep the current best row,
preferring the earlier row whenever `r best cand` holds (so ties keep the
first row, matching a stable sort). -/
def selectStep (r : α → α → Bool) (acc : Option α) (t : α) : Option α :=
  match acc with
  | none => some t
  | some b => if r b t then some b else some t

/-- ORDER BY ... LIMIT 1 over a list, as a left fold of `selectStep`. -/
def selectBest (r : α → α → Bool) (l : List α) : Option α :=
  l.foldl (selectStep r) none

/-- The WHERE clause of the dequeue query in app/services/queue.py
(lines 39-47): same run, state QUEUED. -/
def queue_eligible (run_id : Nat) (t : ApplicationTask) : Bool :=
  t.run_id == run_id && t.state == TaskState.QUEUED

/-- The ORDER BY of the dequeue query (priority DESC, queued_at ASC):
row a sorts no later than row b. -/
def queue_before (a b : ApplicationTask) : Bool :=
  decide (b.priority < a.priority) ||
    (a.priority == b.priority && decide (a.queued_at ≤ b.queued_at))

/-- dequeue_next_task from app/services/queue.py (lines 23-56), modelled on
the list of task rows. -/
def dequeue_next_task (tasks : List ApplicationTask) (run_id : Nat) :
    Option ApplicationTask :=
  selectBest queue_before (tasks.filter (queue_eligible run_id))

/-- The WHERE clause of the stuck-task query in app/services/queue.py
(lines 79-87): state RUNNING and started_at strictly before the cutoff
(a NULL started_at compares as false in SQL). -/
def is_stuck (cutoff : Nat) (t : ApplicationTask) : Bool :=
  t.state == TaskState.RUNNING &&
    match t.started_at with
    | some s => decide (s < cutoff)
    | none => false

/-- The per-task body of the recovery loop in app/services/queue.py
(lines 91-110): at or above max_attempts, report RUNNING → FAILED with the
MAX_ATTEMPTS_EXCEEDED metadata; below it, recover RUNNING → QUEUED. -/
def recover_one (task : ApplicationTask) (max_attempts : Nat) (now : Nat) :
    Except TransitionError (ApplicationTask × Bool) :=
  if max_attempts ≤ task.attempt_count then
    transition_task task (some .RUNNING) .FAILED
      (some { error_code := some "MAX_ATTEMPTS_EXCEEDED",
              error_message := some ("Task stuck in RUNNING state after " ++
                toString task.attempt_count ++ " attempts"),
              rejection_notes := none }) now
  else
    transition_task task (some .RUNNING) .QUEUED none now

/-- recover_stuck_tasks from app/services/queue.py (lines 59-112): select the
stuck tasks, recover each, and return len(stuck_tasks). -/
def recover_stuck_tasks (tasks : List ApplicationTask) (now : Nat)
    (timeout_minutes : Nat) (max_attempts : Nat) :
    List (Except TransitionError (ApplicationTask × Bool)) × Nat :=
  let cutoff_time := now - timeout_minutes * 60
  let stuck_tasks := tasks.filter (is_stuck cutoff_time)
  (stuck_tasks.map (fun t => recover_one t max_attempts now),
   stuck_tasks.length)

/-- Run statuses from app/models/application_run.py (RunStatus). -/
inductive RunStatus where
  | queued
  | running
  | completed
deriving DecidableEq, Repr

/-- A row of the application_runs table (app/models/application_run.py),
restricted to the fields the run queue touches. -/
structure ApplicationRun where
  id : Nat
  user_id : Nat
  status : RunStatus
  created_at : Nat
  started_at : Option Nat
  completed_at : Option Nat
deriving DecidableEq, Repr

/-- get_active_run from app/services/run_queue.py (lines 17-37): the run of
this user with status running, if any. -/
def get_active_run (runs : List ApplicationRun) (user_id : Nat) :
    Option ApplicationRun :=
  (runs.filter (fun r => r.user_id == user_id &&
    r.status == RunStatus.running)).head?

/-- The ORDER BY created_at ASC of start_next_run: row a sorts no later
than row b. -/
def run_fifo_before (a b : ApplicationRun) : Bool :=
  decide (a.created_at ≤ b.created_at)

/-- start_next_run from app/services/run_queue.py (lines 40-89): fail fast if
a run is active, otherwise promote the oldest queued run of the user. -/
def start_next_run (runs : List ApplicationRun) (user_id : Nat) (now : Nat) :
    Except String (List ApplicationRun × Option ApplicationRun) :=
  match get_active_run runs user_id with
  | some active =>
    .error ("Cannot start new run: Run " ++ toString active.id ++
      " is already running. Complete it first.")
  | none =>
    match selectBest run_fifo_before (runs.filter (fun r =>
        r.user_id == user_id && r.status == RunStatus.queued)) with
    | none => .ok (runs, none)
    | some next_run =>
      .ok (runs.map (fun r => if r.id == next_run.id then
             { next_run with
               status := RunStatus.running, started_at := some now }
           else r),
           some { next_run with
                  status := RunStatus.running, started_at := some now })

/-- complete_run from app/services/run_queue.py (lines 92-131): mark the run
completed (committed even if the subsequent auto-start raises), then
optionally start the next queued run of the same user.  The first component
is the database state when the call returns or raises. -/
def complete_run (runs : List ApplicationRun) (run_id : Nat)
    (auto_start_next : Bool) (now : Nat) :
    List ApplicationRun × Except String (Option ApplicationRun) :=
  match runs.find? (fun r => r.id == run_id) with
  | none => (runs, .error ("Run " ++ toString run_id ++ " not found"))
  | some run =>
    if auto_start_next then
      match start_next_run
          (runs.map (fun r => if r.id == run_id then
            { run with
              status := RunStatus.completed, completed_at := some now }
           else r))
          run.user_id now with
      | .error e =>
        (runs.map (fun r => if r.id == run_id then
           { run with
             status := RunStatus.completed, completed_at := some now }
         else r), .error e)
      | .ok (runs2, next_run) => (runs2, .ok next_run)
    else
      (runs.map (fun r => if r.id == run_id then
         { run with status := RunStatus.completed, completed_at := some now }
       else r), .ok none)

/-- How many runs of this user are running (the invariant counts these). -/
def runningCount (runs : List ApplicationRun) (user_id : Nat) : Nat :=
  (runs.filter (fun r => r.user_id == user_id &&
    r.status == RunStatus.running)).length

/-- ApprovalRequest statuses, the four string literals used by
app/api/approvals.py and app/models/approval_request.py. -/
inductive ApprovalStatus where
  | pending
  | approved
  | rejected
  | expired
deriving DecidableEq, Repr

/-- A row of the approval_requests table (app/models/approval_request.py),
restricted to the fields approval resolution touches. -/
structure ApprovalRequest where
  id : Nat
  task_id : Nat
  user_id : Nat
  status : ApprovalStatus
  expires_at : Nat
  approved_at : Option Nat
deriving DecidableEq, Repr

/-- The observable outcome of the approve endpoint: normal return, an
HTTPException with its status code, or a propagated non-HTTP exception from
transition_task.  Each constructor carries the approval row and task row as
committed when the call returns or raises. -/
inductive ApiResult where
  | ok (approval : ApprovalRequest) (task : ApplicationTask)
  | httpError (statusCode : Nat) (approval : ApprovalRequest)
      (task : ApplicationTask)
  | valueError (approval : ApprovalRequest) (task : ApplicationTask)
deriving DecidableEq, Repr

/-- approve_or_reject from app/api/approvals.py (lines 126-216), modelled on
the fetched approval row and its task row.  The 404 branches (missing or
foreign approval), the not-pending 409, the lazy expiry, and the
approve/reject branches follow the source order. -/
def approve_or_reject (approval : ApprovalRequest) (task : ApplicationTask)
    (current_user_id : Nat) (approved : Bool) (notes : Option String)
    (now : Nat) : ApiResult :=
  if approval.user_id ≠ current_user_id then
    .httpError 404 approval task
  else if approval.status ≠ ApprovalStatus.pending then
    .httpError 409 approval task
  else if approval.expires_at < now then
    let approval1 : ApprovalRequest :=
      { approval with status := ApprovalStatus.expired }
    match transition_task task (some .PENDING_APPROVAL) .EXPIRED none now with
    | .ok (task1, _) => .httpError 409 approval1 task1
    | .error _ => .valueError approval1 task
  else if approved then
    let approval1 : ApprovalRequest :=
      { approval with status := ApprovalStatus.approved,
                      approved_at := some now }
    match transition_task task (some .PENDING_APPROVAL) .APPROVED none now with
    | .ok (task1, _) => .ok approval1 task1
    | .error _ => .valueError approval1 task
  else
    let approval1 : ApprovalRequest :=
      { approval with status := ApprovalStatus.rejected }
    let md : Option TransitionMetadata :=
      match notes with
      | some n => some { error_code := none, error_message := none,
                         rejection_notes := some n }
      | none => none
    match transition_task task (some .PENDING_APPROVAL) .REJECTED md now with
    | .ok (task1, _) => .ok approval1 task1
    | .error _ => .valueError approval1 task

/-- The transition graph exactly as the specification lists it, as a set of
(from, to) pairs. -/
def specAllowedEdges : List (TaskState × TaskState) :=
  [(.QUEUED, .RUNNING),
   (.RUNNING, .NEEDS_AUTH), (.RUNNING, .NEEDS_USER),
   (.RUNNING, .PENDING_APPROVAL), (.RUNNING, .SUBMITTED),
   (.RUNNING, .FAILED), (.RUNNING, .EXPIRED), (.RUNNING, .QUEUED),
   (.NEEDS_AUTH, .QUEUED), (.NEEDS_USER, .QUEUED),
   (.PENDING_APPROVAL, .APPROVED), (.PENDING_APPROVAL, .EXPIRED),
   (.PENDING_APPROVAL, .REJECTED),
   (.APPROVED, .RUNNING), (.APPROVED, .EXPIRED),
   (.FAILED, .QUEUED), (.EXPIRED, .QUEUED)]

theorem selectStep_ne_none (r : α → α → Bool) (acc : Option α) (t : α) :
    selectStep r acc t ≠ none := by
  cases acc with
  | none => simp [selectStep]
  | some b => by_cases hr : r b t <;> simp [selectStep, hr]

theorem foldl_selectStep_none_iff (r : α → α → Bool) (l : List α) :
    ∀ acc : Option α, l.foldl (selectStep r) acc = none ↔ acc = none ∧ l = [] := by
  induction l with
  | nil => intro acc; simp
  | cons a t ih =>
    intro acc
    simp only [List.foldl_cons, ih]
    constructor
    · rintro ⟨h1, -⟩
      exact absurd h1 (selectStep_ne_none r acc a)
    · rintro ⟨-, h2⟩
      simp at h2

theorem foldl_selectStep_mem (r : α → α → Bool) :
    ∀ (l : List α) (acc : Option α) (b : α),
      l.foldl (selectStep r) acc = some b → acc = some b ∨ b ∈ l := by
  intro l
  induction l with
  | nil =>
    intro acc b h
    simp at h
    exact Or.inl h
  | cons a t ih =>
    intro acc b h
    simp only [List.foldl_cons] at h
    rcases ih (selectStep r acc a) b h with h1 | h1
    · unfold selectStep at h1
      cases acc with
      | none =>
        simp at h1
        exact Or.inr (by simp [h1])
      | some c =>
        by_cases hr : r c a
        · simp [hr] at h1
          exact Or.inl (by simp [h1])
        · simp [hr] at h1
          exact Or.inr (by simp [h1])
    · exact Or.inr (List.mem_cons_of_mem _ h1)

theorem foldl_selectStep_dominates (r : α → α → Bool)
    (htotal : ∀ a b, r a b = true ∨ r b a = true)
    (htrans : ∀ a b c, r a b = true → r b c = true → r a c = true) :
    ∀ (l : List α) (acc : Option α) (b : α),
      l.foldl (selectStep r) acc = some b →
      (∀ c, acc = some c → r b c = true) ∧ (∀ a ∈ l, r b a = true) := by
  intro l
  induction l with
  | nil =>
    intro acc b h
    simp at h
    refine ⟨fun c hc => ?_, by simp⟩
    rw [h] at hc
    obtain rfl : b = c := by injection hc
    rcases htotal b b with hb | hb <;> exact hb
  | cons a t ih =>
    intro acc b h
    simp only [List.foldl_cons] at h
    obtain ⟨hstep, ht⟩ := ih (selectStep r acc a) b h
    constructor
    · intro c hc
      subst hc
      by_cases hr : r c a
      · exact hstep c (by simp [selectStep, hr])
      · have hba : r b a = true := hstep a (by simp [selectStep, hr])
        have hac : r a c = true := by
          rcases htotal c a with h1 | h1
          · exact absurd h1 hr
          · exact h1
        exact htrans b a c hba hac
    · intro x hx
      rcases List.mem_cons.mp hx with rfl | hx
      · cases acc with
        | none => exact hstep x (by simp [selectStep])
        | some c =>
          by_cases hr : r c x
          · exact htrans b c x (hstep c (by simp [selectStep, hr])) hr
          · exact hstep x (by simp [selectStep, hr])
      · exact ht x hx

theorem selectBest_eq_none_iff (r : α → α → Bool) (l : List α) :
    selectBest r l = none ↔ l = [] := by
  unfold selectBest
  rw [foldl_selectStep_none_iff]
  simp

theorem selectBest_mem (r : α → α → Bool) {l : List α} {b : α}
    (h : selectBest r l = some b) : b ∈ l := by
  rcases foldl_selectStep_mem r l none b h with h1 | h1
  · simp at h1
  · exact h1

theorem selectBest_dominates (r : α → α → Bool)
    (htotal : ∀ a b, r a b = true ∨ r b a = true)
    (htrans : ∀ a b c, r a b = true → r b c = true → r a c = true)
    {l : List α} {b : α} (h : selectBest r l = some b) :
    ∀ a ∈ l, r b a = true :=
  (foldl_selectStep_dominates r htotal htrans l none b h).2

theorem queue_before_total (a b : ApplicationTask) :
    queue_before a b = true ∨ queue_before b a = true := by
  unfold queue_before
  simp only [Bool.or_eq_true, Bool.and_eq_true, decide_eq_true_eq, beq_iff_eq]
  omega

theorem queue_before_trans (a b c : ApplicationTask) :
    queue_before a b = true → queue_before b c = true →
    queue_before a c = true := by
  unfold queue_before
  simp only [Bool.or_eq_true, Bool.and_eq_true, decide_eq_true_eq, beq_iff_eq]
  omega

theorem run_fifo_before_total (a b : ApplicationRun) :
    run_fifo_before a b = true ∨ run_fifo_before b a = true := by
  unfold run_fifo_before
  simp only [decide_eq_true_eq]
  omega

theorem run_fifo_before_trans (a b c : ApplicationRun) :
    run_fifo_before a b = true → run_fifo_before b c = true →
    run_fifo_before a c = true := by
  unfold run_fifo_before
  simp only [decide_eq_true_eq]
  omega

theorem apply_metadata_eq (task : ApplicationTask)
    (m : Option TransitionMetadata) :
    apply_metadata task m =
      { task with
        last_error_code :=
          match m with
          | some meta =>
            match meta.error_code with
            | some c => some c
            | none => task.last_error_code
          | none => task.last_error_code,
        last_error_message :=
          match m with
          | some meta =>
            match meta.error_message with
            | some s => some s
            | none => task.last_error_message
          | none => task.last_error_message } := by
  rcases m with _ | ⟨ec, em, rn⟩
  · rfl
  · rcases ec <;> rcases em <;> rfl

theorem apply_transition_eq (task : ApplicationTask) (f : Option TaskState)
    (t : TaskState) (m : Option TransitionMetadata) (now : Nat) :
    apply_transition task f t m now =
      ({ apply_metadata task m with
          state := if t = .FAILED ∧ task.attempt_count < 2 then .QUEUED else t,
          last_state_change_at := now,
          attempt_count :=
            if t = .RUNNING then task.attempt_count + 1
            else task.attempt_count,
          started_at :=
            if t = .RUNNING then some (task.started_at.getD now)
            else task.started_at,
          priority :=
            if t = .RUNNING ∧ f = some .APPROVED then 200
            else if t = .QUEUED ∧
                (f = some .NEEDS_AUTH ∨ f = some .NEEDS_USER) then 100
            else if t = .FAILED ∧ task.attempt_count < 2 then 100
            else task.priority },
       decide (t = .SUBMITTED)) := by
  simp only [apply_transition, apply_metadata_eq]
  split_ifs <;> simp_all

theorem transition_task_eq_ok (task : ApplicationTask) (f : Option TaskState)
    (t : TaskState) (m : Option TransitionMetadata) (now : Nat)
    (hf : f = none ∨ f = some task.state)
    (hmem : t ∈ ALLOWED_TRANSITIONS task.state) :
    transition_task task f t m now =
      .ok (apply_transition task f t m now) := by
  rcases hf with rfl | rfl <;> simp [transition_task, hmem]

theorem transition_task_eq_error (task : ApplicationTask)
    (f : Option TaskState) (t : TaskState) (m : Option TransitionMetadata)
    (now : Nat) (hf : f = none ∨ f = some task.state)
    (hmem : t ∉ ALLOWED_TRANSITIONS task.state) :
    transition_task task f t m now =
      .error (.invalidTransition task.state t) := by
  rcases hf with rfl | rfl <;> simp [transition_task, hmem]

theorem transition_task_ok_elim (task : ApplicationTask)
    (f : Option TaskState) (t : TaskState) (m : Option TransitionMetadata)
    (now : Nat) (t2 : ApplicationTask) (mk : Bool)
    (h : transition_task task f t m now = .ok (t2, mk)) :
    apply_transition task f t m now = (t2, mk) := by
  simp only [transition_task] at h
  split at h
  · exact absurd h (by simp)
  · split at h
    · injection h
    · exact absurd h (by simp)

/-- C1: can_transition agrees with the transition graph exactly as the claim
lists it, and for every task and requested (from, to) pair off that graph
(with the expected from state either omitted or matching the task's state),
transition_task raises InvalidTransitionError identifying the attempted pair,
without updating the task. -/
theorem claim_transition_graph :
    (∀ s t : TaskState,
      can_transition s t = decide ((s, t) ∈ specAllowedEdges)) ∧
    (∀ (task : ApplicationTask) (f : Option TaskState) (t : TaskState)
       (m : Option TransitionMetadata) (now : Nat),
        f = none ∨ f = some task.state →
        (task.state, t) ∉ specAllowedEdges →
        transition_task task f t m now =
          .error (.invalidTransition task.state t)) := by
  have hgraph : ∀ s t : TaskState,
      can_transition s t = decide ((s, t) ∈ specAllowedEdges) := by decide
  refine ⟨hgraph, fun task f t m now hf hedge => ?_⟩
  refine transition_task_eq_error task f t m now hf fun hc => hedge ?_
  have h1 := hgraph task.state t
  rw [can_transition, decide_eq_decide] at h1
  exact h1.mp hc

/-- Witness for C1 at a concrete off-graph request: QUEUED → SUBMITTED. -/
theorem claim_transition_graph_witness :
    transition_task
        { id := 1, run_id := 1, job_id := 1, state := .QUEUED, priority := 50,
          attempt_count := 0, last_error_code := none,
          last_error_message := none, queued_at := 0, started_at := none,
          last_state_change_at := 0 }
        none .SUBMITTED none 0 =
      .error (.invalidTransition .QUEUED .SUBMITTED) :=
  claim_transition_graph.2
    { id := 1, run_id := 1, job_id := 1, state := .QUEUED, priority := 50,
      attempt_count := 0, last_error_code := none, last_error_message := none,
      queued_at := 0, started_at := none, last_state_change_at := 0 }
    none .SUBMITTED none 0 (Or.inl rfl) (by decide)

/-- C10: with expected_from_state omitted, the graph check is still enforced
against the task's actual current state: a target that is not an allowed
successor raises InvalidTransitionError and leaves the task unchanged. -/
theorem claim_none_from_state_graph_enforced (task : ApplicationTask)
    (t : TaskState) (m : Option TransitionMetadata) (now : Nat)
    (h : can_transition task.state t = false) :
    transition_task task none t m now =
      .error (.invalidTransition task.state t) := by
  refine transition_task_eq_error task none t m now (Or.inl rfl) ?_
  rw [can_transition, decide_eq_false_iff_not] at h
  exact h

/-- C2: a RUNNING task asked to move to FAILED auto-retries when
attempt_count is below 2 (ending QUEUED with priority 100 and attempt_count
unchanged) and lands in terminal FAILED when attempt_count is 2 or more; the
error metadata is persisted in both branches. -/
theorem claim_auto_retry (task : ApplicationTask) (f : Option TaskState)
    (m : Option TransitionMetadata) (now : Nat)
    (hstate : task.state = .RUNNING) (hf : f = none ∨ f = some .RUNNING) :
    ∃ t2 mk, transition_task task f .FAILED m now = .ok (t2, mk) ∧
      (task.attempt_count < 2 →
        t2.state = .QUEUED ∧ t2.priority = 100 ∧
        t2.attempt_count = task.attempt_count) ∧
      (2 ≤ task.attempt_count →
        t2.state = .FAILED ∧ t2.attempt_count = task.attempt_count) ∧
      (∀ meta, m = some meta →
        (∀ c, meta.error_code = some c → t2.last_error_code = some c) ∧
        (∀ s, meta.error_message = some s →
          t2.last_error_message = some s)) := by
  have hf2 : f = none ∨ f = some task.state := by rw [hstate]; exact hf
  have hmem : TaskState.FAILED ∈ ALLOWED_TRANSITIONS task.state := by
    rw [hstate]; decide
  refine ⟨(apply_transition task f .FAILED m now).1,
          (apply_transition task f .FAILED m now).2,
          by rw [transition_task_eq_ok task f .FAILED m now hf2 hmem],
          ?_, ?_, ?_⟩
  · intro hlt
    rw [apply_transition_eq]
    simp [hlt]
  · intro hge
    have hlt : ¬ task.attempt_count < 2 := by omega
    rw [apply_transition_eq]
    simp [hlt]
  · intro meta hm
    subst hm
    constructor
    · intro c hc
      rw [apply_transition_eq]
      simp [apply_metadata_eq, hc]
    · intro s hs
      rw [apply_transition_eq]
      simp [apply_metadata_eq, hs]

/-- Witness for C2 at a concrete first failure: attempt_count 1, metadata
with a TIMEOUT error code. -/
theorem claim_auto_retry_witness :
    ∃ t2 mk, transition_task
        { id := 5, run_id := 1, job_id := 1, state := .RUNNING,
          priority := 50, attempt_count := 1,
          last_error_code := none, last_error_message := none,
          queued_at := 0, started_at := some 0, last_state_change_at := 0 }
        none .FAILED
        (some { error_code := some "TIMEOUT", error_message := some "boom",
                rejection_notes := none }) 10 =
      .ok (t2, mk) ∧
      ((1 : Nat) < 2 →
        t2.state = .QUEUED ∧ t2.priority = 100 ∧ t2.attempt_count = 1) ∧
      (2 ≤ (1 : Nat) → t2.state = .FAILED ∧ t2.attempt_count = 1) ∧
      (∀ meta,
        (some { error_code := some "TIMEOUT", error_message := some "boom",
                rejection_notes := none } :
            Option TransitionMetadata) = some meta →
        (∀ c, meta.error_code = some c → t2.last_error_code = some c) ∧
        (∀ s, meta.error_message = some s →
          t2.last_error_message = some s)) :=
  claim_auto_retry
    { id := 5, run_id := 1, job_id := 1, state := .RUNNING, priority := 50,
      attempt_count := 1, last_error_code := none, last_error_message := none,
      queued_at := 0, started_at := some 0, last_state_change_at := 0 }
    none
    (some { error_code := some "TIMEOUT", error_message := some "boom",
            rejection_notes := none })
    10 rfl (Or.inl rfl)

/-- Task used by the C9 counterexample: blocked on auth, default-ish
priority 50. -/
def noBoostTask : ApplicationTask :=
  { id := 21, run_id := 1, job_id := 1, state := .NEEDS_AUTH, priority := 50,
    attempt_count := 1, last_error_code := none, last_error_message := none,
    queued_at := 0, started_at := some 0, last_state_change_at := 0 }

/-- The result of re-queueing `noBoostTask` with expected_from_state
omitted. -/
def noBoostResult : ApplicationTask :=
  { noBoostTask with state := .QUEUED, last_state_change_at := 5 }

/-- C9 counterexample: a NEEDS_AUTH task transitioned to QUEUED with
expected_from_state omitted keeps priority 50 — the promised boost to 100
does not fire, refuting the claim that the boost applies on every such
transition including calls that omit expected_from_state. -/
theorem claim_priority_boost_counterexample :
    transition_task noBoostTask none .QUEUED none 5 =
      .ok (noBoostResult, false) ∧
    noBoostResult.priority = 50 ∧ ¬ noBoostResult.priority = 100 := by
  refine ⟨rfl, rfl, by decide⟩

/-- C9 corrected: the 100 and 200 priority boosts fire exactly when the
caller passes expected_from_state explicitly (NEEDS_AUTH or NEEDS_USER for
the transition to QUEUED, APPROVED for the transition to RUNNING); the same
transitions requested with expected_from_state omitted succeed but leave the
priority unchanged. -/
theorem claim_priority_boost_amended (task : ApplicationTask)
    (m : Option TransitionMetadata) (now : Nat) :
    ((task.state = .NEEDS_AUTH ∨ task.state = .NEEDS_USER) →
      ∃ t2 mk, transition_task task (some task.state) .QUEUED m now =
          .ok (t2, mk) ∧ t2.priority = 100) ∧
    (task.state = .APPROVED →
      ∃ t2 mk, transition_task task (some .APPROVED) .RUNNING m now =
          .ok (t2, mk) ∧ t2.priority = 200) ∧
    ((task.state = .NEEDS_AUTH ∨ task.state = .NEEDS_USER) →
      ∃ t2 mk, transition_task task none .QUEUED m now =
          .ok (t2, mk) ∧ t2.priority = task.priority) ∧
    (task.state = .APPROVED →
      ∃ t2 mk, transition_task task none .RUNNING m now =
          .ok (t2, mk) ∧ t2.priority = task.priority) := by
  refine ⟨?_, ?_, ?_, ?_⟩
  · intro hs
    have hmem : TaskState.QUEUED ∈ ALLOWED_TRANSITIONS task.state := by
      rcases hs with h | h <;> rw [h] <;> decide
    refine ⟨_, _,
      by rw [transition_task_eq_ok task (some task.state) .QUEUED m now
            (Or.inr rfl) hmem], ?_⟩
    rw [apply_transition_eq]
    rcases hs with h | h <;> simp [h]
  · intro hs
    have hmem : TaskState.RUNNING ∈ ALLOWED_TRANSITIONS task.state := by
      rw [hs]; decide
    refine ⟨_, _,
      by rw [transition_task_eq_ok task (some .APPROVED) .RUNNING m now
            (Or.inr (by rw [hs])) hmem], ?_⟩
    rw [apply_transition_eq]
    simp
  · intro hs
    have hmem : TaskState.QUEUED ∈ ALLOWED_TRANSITIONS task.state := by
      rcases hs with h | h <;> rw [h] <;> decide
    refine ⟨_, _,
      by rw [transition_task_eq_ok task none .QUEUED m now (Or.inl rfl) hmem],
      ?_⟩
    rw [apply_transition_eq]
    simp
  · intro hs
    have hmem : TaskState.RUNNING ∈ ALLOWED_TRANSITIONS task.state := by
      rw [hs]; decide
    refine ⟨_, _,
      by rw [transition_task_eq_ok task none .RUNNING m now (Or.inl rfl) hmem],
      ?_⟩
    rw [apply_transition_eq]
    simp

/-- Task used by the corrected-C9 witness: blocked on auth, priority 50. -/
def noBoostAmendedTask : ApplicationTask :=
  { id := 22, run_id := 1, job_id := 1, state := .NEEDS_AUTH, priority := 50,
    attempt_count := 1, last_error_code := none, last_error_message := none,
    queued_at := 0, started_at := some 0, last_state_change_at := 0 }

/-- Witness for the corrected C9 at a concrete NEEDS_AUTH task resumed with
an explicit expected_from_state. -/
theorem claim_priority_boost_amended_witness :
    ∃ t2 mk, transition_task noBoostAmendedTask
        (some noBoostAmendedTask.state) .QUEUED none 7 =
      .ok (t2, mk) ∧ t2.priority = 100 :=
  (claim_priority_boost_amended noBoostAmendedTask none 7).1 (Or.inl rfl)

/-- C3: dequeue_next_task returns none exactly when the run has no QUEUED
task; otherwise it returns a QUEUED task of that run with maximal priority
and, among equal priorities, the oldest queued_at. -/
theorem claim_dequeue_spec (tasks : List ApplicationTask) (run_id : Nat) :
    (dequeue_next_task tasks run_id = none ↔
      ∀ t ∈ tasks, ¬(t.run_id = run_id ∧ t.state = .QUEUED)) ∧
    (∀ t, dequeue_next_task tasks run_id = some t →
      t ∈ tasks ∧ t.run_id = run_id ∧ t.state = .QUEUED ∧
      ∀ u ∈ tasks, u.run_id = run_id → u.state = .QUEUED →
        u.priority ≤ t.priority ∧
        (u.priority = t.priority → t.queued_at ≤ u.queued_at)) := by
  constructor
  · unfold dequeue_next_task
    rw [selectBest_eq_none_iff, List.filter_eq_nil_iff]
    constructor
    · intro h t ht hc
      exact h t ht (by simp [queue_eligible, hc.1, hc.2])
    · intro h t ht hq
      refine h t ht ?_
      unfold queue_eligible at hq
      simp only [Bool.and_eq_true, beq_iff_eq] at hq
      exact hq
  · intro t h
    have hmem := selectBest_mem queue_before h
    have hdom := selectBest_dominates queue_before queue_before_total
      queue_before_trans h
    rw [List.mem_filter] at hmem
    obtain ⟨hmem, helig⟩ := hmem
    have helig2 : t.run_id = run_id ∧ t.state = .QUEUED := by
      unfold queue_eligible at helig
      simp only [Bool.and_eq_true, beq_iff_eq] at helig
      exact helig
    refine ⟨hmem, helig2.1, helig2.2, ?_⟩
    intro u hu hur hus
    have huf : u ∈ tasks.filter (queue_eligible run_id) :=
      List.mem_filter.mpr ⟨hu, by simp [queue_eligible, hur, hus]⟩
    have hq := hdom u huf
    unfold queue_before at hq
    simp only [Bool.or_eq_true, Bool.and_eq_true, decide_eq_true_eq,
      beq_iff_eq] at hq
    omega

/-- Low-priority queued task used by the C3 witness. -/
def dequeueExA : ApplicationTask :=
  { id := 11, run_id := 1, job_id := 1, state := .QUEUED, priority := 50,
    attempt_count := 0, last_error_code := none, last_error_message := none,
    queued_at := 5, started_at := none, last_state_change_at := 0 }

/-- High-priority queued task used by the C3 witness. -/
def dequeueExB : ApplicationTask :=
  { dequeueExA with id := 13, priority := 100, queued_at := 3 }

/-- Witness for C3 on a concrete two-task queue: the dequeued task dominates
every eligible task. -/
theorem claim_dequeue_spec_witness :
    dequeueExB ∈ [dequeueExA, dequeueExB] ∧ dequeueExB.run_id = 1 ∧
    dequeueExB.state = .QUEUED ∧
    ∀ u ∈ [dequeueExA, dequeueExB], u.run_id = 1 → u.state = .QUEUED →
      u.priority ≤ dequeueExB.priority ∧
      (u.priority = dequeueExB.priority →
        dequeueExB.queued_at ≤ u.queued_at) :=
  (claim_dequeue_spec [dequeueExA, dequeueExB] 1).2 dequeueExB (by decide)

/-- Task used by the C4 counterexample: stuck RUNNING since time 0 with a
single attempt recorded. -/
def stuckTaskEx : ApplicationTask :=
  { id := 41, run_id := 1, job_id := 1, state := .RUNNING, priority := 50,
    attempt_count := 1, last_error_code := none, last_error_message := none,
    queued_at := 0, started_at := some 0, last_state_change_at := 0 }

/-- What the recovery sweep actually produces for `stuckTaskEx` under
max_attempts = 1: redirected to QUEUED by the auto-retry policy. -/
def stuckTaskExResult : ApplicationTask :=
  { stuckTaskEx with
      state := .QUEUED, priority := 100,
      last_error_code := some "MAX_ATTEMPTS_EXCEEDED",
      last_error_message := some "Task stuck in RUNNING state after 1 attempts",
      last_state_change_at := 2000 }

/-- C4 counterexample: with max_attempts = 1 and attempt_count = 1, the
recovery sweep requests RUNNING → FAILED but the auto-retry redirect inside
transition_task still fires (attempt_count < 2), so the task ends QUEUED
with priority 100 instead of terminal FAILED — refuting the claim that the
redirect does not apply on this path for every max_attempts. -/
theorem claim_recover_counterexample :
    is_stuck (2000 - 10 * 60) stuckTaskEx = true ∧
    recover_stuck_tasks [stuckTaskEx] 2000 10 1 =
      ([.ok (stuckTaskExResult, false)], 1) ∧
    stuckTaskExResult.state = .QUEUED ∧
    ¬ stuckTaskExResult.state = .FAILED := by
  refine ⟨rfl, rfl, rfl, by decide⟩

/-- C4 corrected: a stuck RUNNING task with attempt_count ≥ max_attempts
ends in terminal FAILED with error code MAX_ATTEMPTS_EXCEEDED only when
attempt_count is also ≥ 2; when attempt_count ≥ max_attempts but < 2
(possible only for max_attempts ≤ 1) the auto-retry redirect still applies
and the task ends QUEUED with priority 100, the error metadata persisted
either way; a task with attempt_count < max_attempts goes back to QUEUED;
and the returned count is the number of stuck tasks scanned. -/
theorem claim_recover_amended (task : ApplicationTask)
    (max_attempts now : Nat) (hstate : task.state = .RUNNING) :
    (max_attempts ≤ task.attempt_count → 2 ≤ task.attempt_count →
      ∃ t2 mk, recover_one task max_attempts now = .ok (t2, mk) ∧
        t2.state = .FAILED ∧
        t2.last_error_code = some "MAX_ATTEMPTS_EXCEEDED" ∧
        t2.attempt_count = task.attempt_count) ∧
    (max_attempts ≤ task.attempt_count → task.attempt_count < 2 →
      ∃ t2 mk, recover_one task max_attempts now = .ok (t2, mk) ∧
        t2.state = .QUEUED ∧ t2.priority = 100 ∧
        t2.last_error_code = some "MAX_ATTEMPTS_EXCEEDED") ∧
    (task.attempt_count < max_attempts →
      ∃ t2 mk, recover_one task max_attempts now = .ok (t2, mk) ∧
        t2.state = .QUEUED ∧ t2.attempt_count = task.attempt_count) ∧
    (∀ (tasks : List ApplicationTask) (n tm ma : Nat),
      (recover_stuck_tasks tasks n tm ma).2 =
        (tasks.filter (is_stuck (n - tm * 60))).length) := by
  have hfrom : (some TaskState.RUNNING : Option TaskState) = none ∨
      (some TaskState.RUNNING : Option TaskState) = some task.state := by
    rw [hstate]
    exact Or.inr rfl
  refine ⟨?_, ?_, ?_, fun tasks n tm ma => rfl⟩
  · intro hge h2
    simp only [recover_one, if_pos hge]
    rw [transition_task_eq_ok task (some .RUNNING) .FAILED _ now hfrom
          (by rw [hstate]; decide),
        apply_transition_eq]
    refine ⟨_, _, rfl, ?_⟩
    have hlt : ¬ task.attempt_count < 2 := by omega
    simp [apply_metadata_eq, hlt]
  · intro hge hlt
    simp only [recover_one, if_pos hge]
    rw [transition_task_eq_ok task (some .RUNNING) .FAILED _ now hfrom
          (by rw [hstate]; decide),
        apply_transition_eq]
    refine ⟨_, _, rfl, ?_⟩
    simp [apply_metadata_eq, hlt]
  · intro hlt
    simp only [recover_one, if_neg (by omega : ¬ max_attempts ≤ task.attempt_count)]
    rw [transition_task_eq_ok task (some .RUNNING) .QUEUED none now hfrom
          (by rw [hstate]; decide),
        apply_transition_eq]
    refine ⟨_, _, rfl, ?_⟩
    simp

/-- Witness for the corrected C4: the max_attempts = 1, attempt_count = 1
stuck task is redirected to QUEUED with priority 100 and the error code
persisted. -/
theorem claim_recover_amended_witness :
    ∃ t2 mk, recover_one
        { id := 42, run_id := 1, job_id := 1, state := .RUNNING,
          priority := 50, attempt_count := 1, last_error_code := none,
          last_error_message := none, queued_at := 0, started_at := some 0,
          last_state_change_at := 0 } 1 2000 =
      .ok (t2, mk) ∧
      t2.state = .QUEUED ∧ t2.priority = 100 ∧
      t2.last_error_code = some "MAX_ATTEMPTS_EXCEEDED" :=
  (claim_recover_amended
    { id := 42, run_id := 1, job_id := 1, state := .RUNNING, priority := 50,
      attempt_count := 1, last_error_code := none, last_error_message := none,
      queued_at := 0, started_at := some 0, last_state_change_at := 0 }
    1 2000 rfl).2.1 (by decide) (by decide)

theorem runningCount_eq_countP (runs : List ApplicationRun) (u : Nat) :
    runningCount runs u =
      runs.countP (fun r => r.user_id == u &&
        r.status == RunStatus.running) := by
  rw [runningCount]
  exact (List.countP_eq_length_filter _ _).symm

theorem runningCount_update_le (runs : List ApplicationRun) (nid u : Nat)
    (upd : ApplicationRun)
    (hupd : ¬(upd.user_id = u ∧ upd.status = RunStatus.running)) :
    runningCount (runs.map (fun r => if r.id == nid then upd else r)) u ≤
      runningCount runs u := by
  rw [runningCount_eq_countP, runningCount_eq_countP, List.countP_map]
  apply List.countP_mono_left
  intro r hr hp
  simp only [Function.comp] at hp
  by_cases h : r.id == nid
  · rw [if_pos h] at hp
    simp only [Bool.and_eq_true, beq_iff_eq] at hp
    exact absurd hp hupd
  · rw [if_neg h] at hp
    exact hp

theorem runningCount_update_of_none (runs : List ApplicationRun)
    (nid u : Nat) (upd : ApplicationRun)
    (hnodup : (runs.map (fun r => r.id)).Nodup)
    (hnone : ∀ r ∈ runs, ¬(r.user_id = u ∧ r.status = RunStatus.running)) :
    runningCount (runs.map (fun r => if r.id == nid then upd else r)) u ≤
      1 := by
  rw [runningCount_eq_countP, List.countP_map]
  have h1 : runs.countP ((fun r => r.user_id == u &&
      r.status == RunStatus.running) ∘
        (fun r => if r.id == nid then upd else r)) ≤
      runs.countP (fun r => r.id == nid) := by
    apply List.countP_mono_left
    intro r hr hp
    simp only [Function.comp] at hp
    by_cases h : r.id == nid
    · exact h
    · rw [if_neg h] at hp
      simp only [Bool.and_eq_true, beq_iff_eq] at hp
      exact absurd hp (hnone r hr)
  refine le_trans h1 ?_
  have h2 : runs.countP (fun r => r.id == nid) =
      (runs.map (fun r => r.id)).count nid := by
    rw [List.count_eq_countP, List.countP_map]
    rfl
  rw [h2]
  exact List.nodup_iff_count_le_one.mp hnodup nid

theorem map_id_update (runs : List ApplicationRun) (nid : Nat)
    (upd : ApplicationRun) (hid : upd.id = nid) :
    ((runs.map (fun r => if r.id == nid then upd else r)).map
        (fun r => r.id)) =
      runs.map (fun r => r.id) := by
  rw [List.map_map]
  apply List.map_congr_left
  intro r hr
  simp only [Function.comp]
  by_cases h : r.id == nid
  · rw [if_pos h, hid]
    exact (beq_iff_eq.mp h).symm
  · rw [if_neg h]

theorem get_active_run_none_elim (runs : List ApplicationRun) (u : Nat)
    (h : get_active_run runs u = none) :
    ∀ r ∈ runs, ¬(r.user_id = u ∧ r.status = RunStatus.running) := by
  unfold get_active_run at h
  rw [List.head?_eq_none_iff, List.filter_eq_nil_iff] at h
  intro r hr hc
  exact h r hr (by simp [hc.1, hc.2])

theorem start_next_run_fail_fast (runs : List ApplicationRun)
    (uid now : Nat) (a : ApplicationRun)
    (hact : get_active_run runs uid = some a) :
    ∃ msg, start_next_run runs uid now = .error msg := by
  simp only [start_next_run, hact]
  exact ⟨_, rfl⟩

theorem start_next_run_empty (runs : List ApplicationRun) (uid now : Nat)
    (hact : get_active_run runs uid = none)
    (hq : ∀ r ∈ runs, ¬(r.user_id = uid ∧ r.status = RunStatus.queued)) :
    start_next_run runs uid now = .ok (runs, none) := by
  have hfil : runs.filter (fun r => r.user_id == uid &&
      r.status == RunStatus.queued) = [] := by
    rw [List.filter_eq_nil_iff]
    intro r hr hc
    simp only [Bool.and_eq_true, beq_iff_eq] at hc
    exact hq r hr hc
  simp only [start_next_run, hact, hfil, selectBest, List.foldl_nil]

theorem start_next_run_promotes (runs : List ApplicationRun)
    (uid now : Nat) (runs2 : List ApplicationRun) (next : ApplicationRun)
    (h : start_next_run runs uid now = .ok (runs2, some next)) :
    next.status = RunStatus.running ∧ next.started_at = some now ∧
    ∃ orig, orig ∈ runs ∧ orig.user_id = uid ∧
      orig.status = RunStatus.queued ∧
      next = { orig with
               status := RunStatus.running, started_at := some now } ∧
      ∀ r ∈ runs, r.user_id = uid → r.status = RunStatus.queued →
        orig.created_at ≤ r.created_at := by
  unfold start_next_run at h
  cases hact : get_active_run runs uid with
  | some a =>
    rw [hact] at h
    exact absurd h (by simp)
  | none =>
    rw [hact] at h
    cases hsel : selectBest run_fifo_before (runs.filter (fun r =>
        r.user_id == uid && r.status == RunStatus.queued)) with
    | none =>
      rw [hsel] at h
      exact absurd h (by simp)
    | some sel =>
      rw [hsel] at h
      have hmem := selectBest_mem run_fifo_before hsel
      have hdom := selectBest_dominates run_fifo_before run_fifo_before_total
        run_fifo_before_trans hsel
      rw [List.mem_filter] at hmem
      obtain ⟨hmem, hpred⟩ := hmem
      simp only [Bool.and_eq_true, beq_iff_eq] at hpred
      have hnext : ({ sel with
          status := RunStatus.running,
          started_at := some now } : ApplicationRun) = next := by
        injection h with h1
        injection h1 with h2 h3
        injection h3
      refine ⟨by rw [← hnext], by rw [← hnext], sel, hmem, hpred.1, hpred.2,
        hnext.symm, ?_⟩
      intro r hr hu hs
      have hrf := hdom r (List.mem_filter.mpr ⟨hr, by simp [hu, hs]⟩)
      unfold run_fifo_before at hrf
      simpa using hrf

theorem start_next_run_keeps_invariant (runs : List ApplicationRun)
    (uid now : Nat) (runs2 : List ApplicationRun)
    (res : Option ApplicationRun)
    (hnodup : (runs.map (fun r => r.id)).Nodup)
    (h : start_next_run runs uid now = .ok (runs2, res))
    (u : Nat) (hinv : runningCount runs u ≤ 1) :
    runningCount runs2 u ≤ 1 := by
  unfold start_next_run at h
  cases hact : get_active_run runs uid with
  | some a =>
    rw [hact] at h
    exact absurd h (by simp)
  | none =>
    rw [hact] at h
    cases hsel : selectBest run_fifo_before (runs.filter (fun r =>
        r.user_id == uid && r.status == RunStatus.queued)) with
    | none =>
      rw [hsel] at h
      injection h with h1
      injection h1 with h2 h3
      subst h2
      exact hinv
    | some sel =>
      rw [hsel] at h
      injection h with h1
      injection h1 with h2 h3
      subst h2
      by_cases hu : u = uid
      · subst hu
        exact runningCount_update_of_none runs sel.id u _ hnodup
          (get_active_run_none_elim runs u hact)
      · have hnext := selectBest_mem run_fifo_before hsel
        rw [List.mem_filter] at hnext
        have huid : sel.user_id = uid := by
          have hp := hnext.2
          simp only [Bool.and_eq_true, beq_iff_eq] at hp
          exact hp.1
        refine le_trans (runningCount_update_le runs sel.id u _ ?_) hinv
        rintro ⟨hc, -⟩
        have hc2 : sel.user_id = u := hc
        exact hu (hc2.symm.trans huid)

theorem complete_run_keeps_invariant (runs : List ApplicationRun)
    (rid : Nat) (auto : Bool) (now : Nat)
    (hnodup : (runs.map (fun r => r.id)).Nodup)
    (hinv : ∀ u, runningCount runs u ≤ 1) (u : Nat) :
    runningCount (complete_run runs rid auto now).1 u ≤ 1 := by
  unfold complete_run
  cases hfind : runs.find? (fun r => r.id == rid) with
  | none => exact hinv u
  | some run =>
    dsimp only
    have hrid : run.id = rid := by
      have hp := List.find?_some hfind
      simpa using hp
    have hnodup1 : ((runs.map (fun r => if r.id == rid then
        { run with status := RunStatus.completed, completed_at := some now }
        else r)).map (fun r => r.id)).Nodup := by
      rw [map_id_update runs rid
        { run with status := RunStatus.completed, completed_at := some now }
        hrid]
      exact hnodup
    have hinv1 : ∀ v, runningCount (runs.map (fun r => if r.id == rid then
        { run with status := RunStatus.completed, completed_at := some now }
        else r)) v ≤ 1 := by
      intro v
      refine le_trans (runningCount_update_le runs rid v _ ?_) (hinv v)
      rintro ⟨-, hc⟩
      have hc2 : RunStatus.completed = RunStatus.running := hc
      exact absurd hc2 (by simp)
    cases auto with
    | false => exact hinv1 u
    | true =>
      cases hstart : start_next_run (runs.map (fun r => if r.id == rid then
          { run with
            status := RunStatus.completed, completed_at := some now }
          else r)) run.user_id now with
      | error e => exact hinv1 u
      | ok p =>
        obtain ⟨runs2, nxt⟩ := p
        exact start_next_run_keeps_invariant _ _ _ _ _ hnodup1 hstart u
          (hinv1 u)

/-- C7: at most one running run per user is preserved by start_next_run and
complete_run; start_next_run fails fast when an active run exists, promotes
the oldest queued run (FIFO by created_at) stamping started_at, and returns
none when no queued run exists. -/
theorem claim_run_queue :
    (∀ (runs : List ApplicationRun) (uid now : Nat) (a : ApplicationRun),
      get_active_run runs uid = some a →
      ∃ msg, start_next_run runs uid now = .error msg) ∧
    (∀ (runs : List ApplicationRun) (uid now : Nat),
      get_active_run runs uid = none →
      (∀ r ∈ runs, ¬(r.user_id = uid ∧ r.status = RunStatus.queued)) →
      start_next_run runs uid now = .ok (runs, none)) ∧
    (∀ (runs : List ApplicationRun) (uid now : Nat)
       (runs2 : List ApplicationRun) (next : ApplicationRun),
      start_next_run runs uid now = .ok (runs2, some next) →
      next.status = RunStatus.running ∧ next.started_at = some now ∧
      ∃ orig, orig ∈ runs ∧ orig.user_id = uid ∧
        orig.status = RunStatus.queued ∧
        next = { orig with
                 status := RunStatus.running, started_at := some now } ∧
        ∀ r ∈ runs, r.user_id = uid → r.status = RunStatus.queued →
          orig.created_at ≤ r.created_at) ∧
    (∀ (runs : List ApplicationRun) (uid now : Nat)
       (runs2 : List ApplicationRun) (res : Option ApplicationRun),
      (runs.map (fun r => r.id)).Nodup →
      start_next_run runs uid now = .ok (runs2, res) →
      ∀ u, runningCount runs u ≤ 1 → runningCount runs2 u ≤ 1) ∧
    (∀ (runs : List ApplicationRun) (rid : Nat) (auto : Bool) (now : Nat),
      (runs.map (fun r => r.id)).Nodup →
      (∀ u, runningCount runs u ≤ 1) →
      ∀ u, runningCount (complete_run runs rid auto now).1 u ≤ 1) :=
  ⟨start_next_run_fail_fast,
   start_next_run_empty,
   start_next_run_promotes,
   fun runs uid now runs2 res hnodup h u hinv =>
     start_next_run_keeps_invariant runs uid now runs2 res hnodup h u hinv,
   fun runs rid auto now hnodup hinv u =>
     complete_run_keeps_invariant runs rid auto now hnodup hinv u⟩

/-- Run used by the C7 witness: the user already has a running run. -/
def runExActive : ApplicationRun :=
  { id := 1, user_id := 7, status := .running, created_at := 10,
    started_at := some 2, completed_at := none }

/-- Witness for C7: admission is refused while `runExActive` is running, and
completing it keeps the invariant. -/
theorem claim_run_queue_witness :
    (∃ msg, start_next_run [runExActive] 7 99 = .error msg) ∧
    runningCount (complete_run [runExActive] 1 true 99).1 7 ≤ 1 :=
  ⟨claim_run_queue.1 [runExActive] 7 99 runExActive rfl,
   claim_run_queue.2.2.2.2 [runExActive] 1 true 99 (by decide)
     (fun u => le_trans (List.length_filter_le _ _) (by decide)) 7⟩

/-- Approval used by the C5 evaluation: pending and not yet expired. -/
def rejectExApproval : ApprovalRequest :=
  { id := 1, task_id := 2, user_id := 3, status := .pending,
    expires_at := 100, approved_at := none }

/-- Task used by the C5 evaluation: awaiting approval. -/
def rejectExTask : ApplicationTask :=
  { id := 2, run_id := 1, job_id := 1, state := .PENDING_APPROVAL,
    priority := 50, attempt_count := 1, last_error_code := none,
    last_error_message := none, queued_at := 0, started_at := some 0,
    last_state_change_at := 0 }

/-- C5 (code bug): resolving a pending, unexpired approval with
approved = false does set the request to rejected and drive the task
PENDING_APPROVAL → REJECTED, and REJECTED has no outbound transitions — but
"REJECTED" is not among the enum members declared by class TaskState in
app/models/application_task.py, so the attribute lookup TaskState.REJECTED
performed by the state machine, the approvals API and the tests raises
AttributeError in Python: the state the claim requires the system to
represent and store is missing from the declared model enum. -/
theorem claim_rejected_state_bug :
    approve_or_reject rejectExApproval rejectExTask 3 false none 50 =
      .ok { rejectExApproval with status := .rejected }
        { rejectExTask with
            state := .REJECTED, last_state_change_at := 50 } ∧
    ALLOWED_TRANSITIONS .REJECTED = [] ∧
    TaskState.value .REJECTED = "REJECTED" ∧
    "REJECTED" ∉ declaredTaskStateValues := by
  refine ⟨rfl, rfl, rfl, by decide⟩

/-- C8: resolving a pending approval past its expiry reports a 409 conflict
only after marking the approval expired and driving the owning task
PENDING_APPROVAL → EXPIRED; resolving an approval that is no longer pending
reports 409 and changes neither row. -/
theorem claim_expired_approval (approval : ApprovalRequest)
    (task : ApplicationTask) (approved : Bool) (notes : Option String)
    (uid now : Nat) :
    (approval.user_id = uid → approval.status = .pending →
      approval.expires_at < now → task.state = .PENDING_APPROVAL →
      ∃ t2, approve_or_reject approval task uid approved notes now =
          .httpError 409 { approval with status := .expired } t2 ∧
        t2.state = .EXPIRED) ∧
    (approval.user_id = uid → ¬ approval.status = .pending →
      approve_or_reject approval task uid approved notes now =
        .httpError 409 approval task) := by
  constructor
  · intro hu hp hexp hts
    have hmem : TaskState.EXPIRED ∈ ALLOWED_TRANSITIONS task.state := by
      rw [hts]
      decide
    simp only [approve_or_reject, hu, hp, hexp,
      transition_task_eq_ok task (some .PENDING_APPROVAL) .EXPIRED none now
        (Or.inr (by rw [hts])) hmem,
      apply_transition_eq]
    simp
  · intro hu hp
    simp only [approve_or_reject, hu]
    rw [if_neg (by simp), if_pos hp]

/-- Witness for C8: a concrete pending approval resolved after its expiry
and a concrete already-approved one. -/
theorem claim_expired_approval_witness :
    (∃ t2, approve_or_reject
        { id := 4, task_id := 2, user_id := 3, status := .pending,
          expires_at := 100, approved_at := none }
        { id := 2, run_id := 1, job_id := 1, state := .PENDING_APPROVAL,
          priority := 50, attempt_count := 1, last_error_code := none,
          last_error_message := none, queued_at := 0, started_at := some 0,
          last_state_change_at := 0 }
        3 true none 500 =
      .httpError 409
        { id := 4, task_id := 2, user_id := 3, status := .expired,
          expires_at := 100, approved_at := none } t2 ∧
      t2.state = .EXPIRED) :=
  (claim_expired_approval
    { id := 4, task_id := 2, user_id := 3, status := .pending,
      expires_at := 100, approved_at := none }
    { id := 2, run_id := 1, job_id := 1, state := .PENDING_APPROVAL,
      priority := 50, attempt_count := 1, last_error_code := none,
      last_error_message := none, queued_at := 0, started_at := some 0,
      last_state_change_at := 0 }
    true none 3 500).1 rfl rfl (by decide) rfl

/-- C6: for every successful transition, _mark_job_as_applied is invoked
exactly when the resulting task state is SUBMITTED, and marking sets the
applied flag together with a timestamp. -/
theorem claim_mark_applied_iff_submitted (task : ApplicationTask)
    (f : Option TaskState) (t : TaskState) (m : Option TransitionMetadata)
    (now : Nat) (t2 : ApplicationTask) (mk : Bool)
    (h : transition_task task f t m now = .ok (t2, mk)) :
    (mk = true ↔ t2.state = .SUBMITTED) ∧
    (∀ job : JobPosting,
      (mark_job_as_applied job now).has_been_applied_to = true ∧
      (mark_job_as_applied job now).last_applied_at = some now) := by
  have h2 := transition_task_ok_elim task f t m now t2 mk h
  rw [apply_transition_eq] at h2
  injection h2 with h2a h2b
  subst h2a
  subst h2b
  constructor
  · by_cases hc : t = .FAILED ∧ task.attempt_count < 2
    · obtain ⟨rfl, hlt⟩ := hc
      simp [hlt]
    · simp [hc]
  · intro job
    simp [mark_job_as_applied]

/-- Task used by the C6 witness: a RUNNING task about to submit. -/
def submitExTask : ApplicationTask :=
  { id := 31, run_id := 1, job_id := 1, state := .RUNNING, priority := 50,
    attempt_count := 1, last_error_code := none, last_error_message := none,
    queued_at := 0, started_at := some 0, last_state_change_at := 0 }

/-- The result of submitting `submitExTask`. -/
def submitExResult : ApplicationTask :=
  { submitExTask with state := .SUBMITTED, last_state_change_at := 3 }

/-- Witness for C6 at a concrete RUNNING → SUBMITTED transition. -/
theorem claim_mark_applied_iff_submitted_witness :
    (true = true ↔ submitExResult.state = .SUBMITTED) ∧
    (∀ job : JobPosting,
      (mark_job_as_applied job 3).has_been_applied_to = true ∧
      (mark_job_as_applied job 3).last_applied_at = some 3) :=
  claim_mark_applied_iff_submitted submitExTask none .SUBMITTED none 3
    submitExResult true rfl

/-- Witness for C10: a SUBMITTED task cannot be re-queued even with
expected_from_state omitted. -/
theorem claim_none_from_state_graph_enforced_witness :
    can_transition .SUBMITTED .QUEUED = false ∧
    transition_task
        { id := 2, run_id := 1, job_id := 1, state := .SUBMITTED,
          priority := 50, attempt_count := 2, last_error_code := none,
          last_error_message := none, queued_at := 0, started_at := some 1,
          last_state_change_at := 4 }
        none .QUEUED none 9 =
      .error (.invalidTransition .SUBMITTED .QUEUED) :=
  ⟨by decide,
   claim_none_from_state_graph_enforced
     { id := 2, run_id := 1, job_id := 1, state := .SUBMITTED, priority := 50,
       attempt_count := 2, last_error_code := none, last_error_message := none,
       queued_at := 0, started_at := some 1, last_state_change_at := 4 }
     .QUEUED none 9 (by decide)⟩

end JobBot
